import Mathlib

/-!
# Keyboard teleoperation node (`drone-teleop/src/control.cpp`)

A shallow embedding of the class `TeleopDrone`: the cached vehicle state, the
four service wrappers (`setModeGuided`, `armDrone`, `disarmDrone`,
`takeoffDrone`, `landDrone`) and the input loop `run`.

Modelling choices.

* The node talks to the outside through a publisher, four service clients and
  `rclcpp::sleep_for`.  Each such call appends one `Event` to a trace, oldest
  event first.  Console logging (`RCLCPP_INFO`, `RCLCPP_WARN`) is not traced.
* The numeric literals of the source (`0.0`, `0.1`, `-0.1`, `3.0`) are only
  stored and never computed with, so they are kept as the decimal numbers they
  denote, in `ℚ`.
* `client->wait_for_service(2s)` is answered by the environment: the `n`-th
  call made by the node, counted over all four clients, returns
  `env.wait_for_service n svc`.  The `while (!wait_for_service(..))` loops may
  spin for ever, so each of them runs on a budget of `fuel` polls; running out
  of budget is reported as "still waiting", never as a return.  A property
  that holds for every `fuel` holds however long one waits.
* A `char key`, the value `getKey()` returned, is a `Char`; the `switch` is a
  `match` on the same character literals.
* `run` consumes the list of keys that `getKey()` hands out while
  `rclcpp::ok()` holds; the end of the list is the loop condition failing.
* The loop `runLoop` is written for any middleware: before the `i`-th key is
  dispatched a state message, `env.state_msg i`, may go through
  `stateCallback`.  In the program itself `run()` is called from the
  constructor (line 30), and the executor that would run `stateCallback`,
  `rclcpp::spin` (line 212), starts once the constructor has returned.  The
  constructor is `constructTeleopDrone`: it runs the loop in `beforeSpin env`,
  where no state message arrives, from the default-constructed cache.
-/

namespace TeleopDrone

/-! ## Messages and requests -/

/-- The message type `geometry_msgs::msg::Vector3`. -/
structure Vector3 where
  x : ℚ := 0.0
  y : ℚ := 0.0
  z : ℚ := 0.0
deriving DecidableEq, Repr

/-- The message type `geometry_msgs::msg::Twist`. -/
structure Twist where
  linear : Vector3 := {}
  angular : Vector3 := {}
deriving DecidableEq, Repr

/-- The two fields of `mavros_msgs::msg::State` that the node reads.  Its
  default value is the one `current_state_` holds before any message arrives. -/
structure State where
  armed : Bool := false
  mode : String := ""
deriving DecidableEq, Repr

/-- The request `mavros_msgs::srv::SetMode::Request`, the field the node writes. -/
structure SetModeRequest where
  custom_mode : String := ""
deriving DecidableEq, Repr

/-- The request `mavros_msgs::srv::CommandBool::Request`. -/
structure CommandBoolRequest where
  value : Bool := false
deriving DecidableEq, Repr

/-- The request `mavros_msgs::srv::CommandTOL::Request`, the field the node writes. -/
structure CommandTOLRequest where
  altitude : ℚ := 0.0
deriving DecidableEq, Repr

/-- The four service clients of the node. -/
inductive Service where
  | arming
  | set_mode
  | takeoff
  | land
deriving DecidableEq, Repr

/-- One call that leaves the node. -/
inductive Event where
  /-- call `set_mode_client_->async_send_request(request)` -/
  | set_mode (request : SetModeRequest)
  /-- call `arming_client_->async_send_request(request)` -/
  | arming (request : CommandBoolRequest)
  /-- call `takeoff_client_->async_send_request(request)` -/
  | takeoff (request : CommandTOLRequest)
  /-- call `land_client_->async_send_request(request)` -/
  | land (request : CommandTOLRequest)
  /-- call `rclcpp::sleep_for(std::chrono::seconds(n))` -/
  | sleep_for (seconds : Nat)
  /-- call `cmd_vel_pub_->publish(msg)` -/
  | publish (msg : Twist)
deriving DecidableEq, Repr

/-- What the middleware decides. -/
structure Env where
  /-- answer of the `n`-th `wait_for_service` call, made on client `svc` -/
  wait_for_service : Nat → Service → Bool
  /-- state message delivered before the `i`-th key is dispatched, if any -/
  state_msg : Nat → Option State

/-- The observable side of an execution. -/
structure World where
  /-- number of `wait_for_service` calls made so far -/
  polls : Nat := 0
  /-- calls that left the node, oldest first -/
  trace : List Event := []
deriving DecidableEq, Repr

/-! ## The member functions -/

/-- Member `stateCallback`: the cached state is replaced by the message. -/
def stateCallback (_current_state_ : State) (msg : State) : State :=
  msg

/-- The loop `while (!client->wait_for_service(2s)) { warn }`, started when
`polls` calls have been made.  It returns the number of calls made once a call
answers `true`, and `none` when `fuel` calls all answered `false`. -/
def waitLoop (env : Env) (svc : Service) : Nat → Nat → Option Nat
  | 0, _ => none
  | fuel + 1, polls =>
    if env.wait_for_service polls svc then some (polls + 1)
    else waitLoop env svc fuel (polls + 1)

/-- Member `setModeGuided`.  `none`: the call is still in its wait loop. -/
def setModeGuided (env : Env) (fuel : Nat) (current_state_ : State) (w : World) :
    Option World :=
  if current_state_.mode = "GUIDED" then
    some w
  else
    let request : SetModeRequest := { custom_mode := "GUIDED" }
    match waitLoop env Service.set_mode fuel w.polls with
    | none => none
    | some polls => some { polls := polls, trace := w.trace ++ [Event.set_mode request] }

/-- Member `armDrone`.  `none`: the call is still in its wait loop. -/
def armDrone (env : Env) (fuel : Nat) (current_state_ : State) (w : World) :
    Option World :=
  if current_state_.armed then
    some w
  else
    let arm_request : CommandBoolRequest := { value := true }
    match waitLoop env Service.arming fuel w.polls with
    | none => none
    | some polls => some { polls := polls, trace := w.trace ++ [Event.arming arm_request] }

/-- Member `disarmDrone`.  `none`: the call is still in its wait loop. -/
def disarmDrone (env : Env) (fuel : Nat) (current_state_ : State) (w : World) :
    Option World :=
  if !current_state_.armed then
    some w
  else
    let disarm_request : CommandBoolRequest := { value := false }
    match waitLoop env Service.arming fuel w.polls with
    | none => none
    | some polls => some { polls := polls, trace := w.trace ++ [Event.arming disarm_request] }

/-- Member `takeoffDrone`.  `none`: the call is still in its wait loop. -/
def takeoffDrone (env : Env) (fuel : Nat) (w : World) : Option World :=
  let takeoff_request : CommandTOLRequest := { altitude := 3.0 }
  match waitLoop env Service.takeoff fuel w.polls with
  | none => none
  | some polls => some { polls := polls, trace := w.trace ++ [Event.takeoff takeoff_request] }

/-- Member `landDrone`.  `none`: the call is still in its wait loop. -/
def landDrone (env : Env) (fuel : Nat) (w : World) : Option World :=
  let land_request : CommandTOLRequest := {}
  match waitLoop env Service.land fuel w.polls with
  | none => none
  | some polls => some { polls := polls, trace := w.trace ++ [Event.land land_request] }

/-- The call `rclcpp::sleep_for(std::chrono::seconds(n))`. -/
def sleep_for (seconds : Nat) (w : World) : World :=
  { w with trace := w.trace ++ [Event.sleep_for seconds] }

/-- The call `cmd_vel_pub_->publish(msg)`. -/
def publish (msg : Twist) (w : World) : World :=
  { w with trace := w.trace ++ [Event.publish msg] }

/-! ## The input loop -/

/-- How the `switch (key)` of `run` is left. -/
inductive Switch where
  /-- by `break`, with the local `msg` as it now is -/
  | brk (msg : Twist) (w : World)
  /-- by `return` (key `x`) -/
  | ret (w : World)
  /-- not at all: a service wrapper is still in its wait loop -/
  | waiting (w : World)
deriving DecidableEq, Repr

/-- The world a way out of the `switch` carries. -/
def Switch.world : Switch → World
  | Switch.brk _ w => w
  | Switch.ret w => w
  | Switch.waiting w => w

/-- From a service wrapper's result to the `break` that follows the call. -/
def brkAfter (msg : Twist) (w : World) : Option World → Switch
  | some w1 => Switch.brk msg w1
  | none => Switch.waiting w

/-- The `switch (key)` statement of `run`, lines 155-200. -/
def dispatch (env : Env) (fuel : Nat) (current_state_ : State) (msg : Twist)
    (key : Char) (w : World) : Switch :=
  match key with
  | 'w' => Switch.brk { msg with linear := { msg.linear with x := 0.1 } } w
  | 's' => Switch.brk { msg with linear := { msg.linear with x := -0.1 } } w
  | 'a' => Switch.brk { msg with linear := { msg.linear with y := 0.1 } } w
  | 'd' => Switch.brk { msg with linear := { msg.linear with y := -0.1 } } w
  | 'q' => Switch.brk { msg with angular := { msg.angular with z := 0.1 } } w
  | 'e' => Switch.brk { msg with angular := { msg.angular with z := -0.1 } } w
  | 'r' => Switch.brk { msg with linear := { msg.linear with z := 0.1 } } w
  | 'f' => Switch.brk { msg with linear := { msg.linear with z := -0.1 } } w
  | 'm' => brkAfter msg w (setModeGuided env fuel current_state_ w)
  | 't' =>
    match armDrone env fuel current_state_ w with
    | none => Switch.waiting w
    | some w1 =>
      let w2 := sleep_for 3 w1
      brkAfter msg w2 (takeoffDrone env fuel w2)
  | 'l' => brkAfter msg w (landDrone env fuel w)
  | 'z' => brkAfter msg w (disarmDrone env fuel current_state_ w)
  | 'x' => Switch.ret w
  | _ => Switch.brk msg w

/-- The four assignments that open the loop body, lines 150-153. -/
def resetMsg (msg : Twist) : Twist :=
  { linear := { x := 0.0, y := 0.0, z := 0.0 },
    angular := { msg.angular with z := 0.0 } }

/-- One pass through the body of `while (rclcpp::ok())` with `key` the value
of `getKey()`: reset, `switch`, publish.  `msg` is the local of `run` as the
pass before left it. -/
def iteration (env : Env) (fuel : Nat) (current_state_ : State) (msg : Twist)
    (key : Char) (w : World) : Switch :=
  match dispatch env fuel current_state_ (resetMsg msg) key w with
  | Switch.brk msg1 w1 => Switch.brk msg1 (publish msg1 w1)
  | Switch.ret w1 => Switch.ret w1
  | Switch.waiting w1 => Switch.waiting w1

/-- The cached state when the `i`-th key is dispatched: a state message that
arrived in the meantime went through `stateCallback`. -/
def deliver (env : Env) (i : Nat) (current_state_ : State) : State :=
  match env.state_msg i with
  | some m => stateCallback current_state_ m
  | none => current_state_

/-- How `run` ends. -/
inductive Outcome where
  /-- call `return` on key `x` -/
  | exited (w : World)
  /-- the loop condition failed: no key is left -/
  | stopped (w : World)
  /-- a service wrapper is still in its wait loop -/
  | waiting (w : World)
deriving DecidableEq, Repr

/-- The world an outcome carries. -/
def Outcome.world : Outcome → World
  | Outcome.exited w => w
  | Outcome.stopped w => w
  | Outcome.waiting w => w

/-- The loop of `run`, entered for the `i`-th time with the keys that are
still to come. -/
def runLoop (env : Env) (fuel : Nat) : List Char → Nat → State → Twist → World → Outcome
  | [], _, _, _, w => Outcome.stopped w
  | key :: keys, i, current_state_, msg, w =>
    let current_state_ := deliver env i current_state_
    match iteration env fuel current_state_ msg key w with
    | Switch.brk msg1 w1 => runLoop env fuel keys (i + 1) current_state_ msg1 w1
    | Switch.ret w1 => Outcome.exited w1
    | Switch.waiting w1 => Outcome.waiting w1

/-- Member `run`, called from the constructor: `msg` is default-constructed and
`current_state_` is what the constructor left. -/
def run (env : Env) (fuel : Nat) (keys : List Char) (current_state_ : State) : Outcome :=
  runLoop env fuel keys 0 current_state_ {} {}

/-- The environment as the node meets it while its constructor runs.  The
subscription callback is run by an executor only, and `main` hands the node to
`rclcpp::spin` (line 212) after the constructor, and so `run()`, has returned:
no state message reaches `stateCallback` in the meantime. -/
def beforeSpin (env : Env) : Env :=
  { wait_for_service := env.wait_for_service, state_msg := fun _ => none }

/-- The constructor `TeleopDrone()`, lines 14-31: the member `current_state_`
is default-constructed, publisher, clients and subscription are created, which
sends nothing, and `run()` is called. -/
def constructTeleopDrone (env : Env) (fuel : Nat) (keys : List Char) : Outcome :=
  run (beforeSpin env) fuel keys {}

/-! ## Vocabulary of the properties -/

/-- Client `svc` answers every `wait_for_service` call with `true`. -/
def Reachable (env : Env) (svc : Service) : Prop :=
  ∀ n, env.wait_for_service n svc = true

/-- Client `svc` answers every `wait_for_service` call with `false`. -/
def NeverReachable (env : Env) (svc : Service) : Prop :=
  ∀ n, env.wait_for_service n svc = false

/-- Counted from call number `polls`, client `svc` answers `false` to `k`
calls and `true` to the next one. -/
def ReachableAfter (env : Env) (svc : Service) (polls k : Nat) : Prop :=
  (∀ j, j < k → env.wait_for_service (polls + j) svc = false) ∧
    env.wait_for_service (polls + k) svc = true

/-- Service submissions, as opposed to sleeps and publishes. -/
def Event.isRequest : Event → Bool
  | Event.set_mode _ => true
  | Event.arming _ => true
  | Event.takeoff _ => true
  | Event.land _ => true
  | Event.sleep_for _ => false
  | Event.publish _ => false

/-- Velocity publishes. -/
def Event.isPublish : Event → Bool
  | Event.publish _ => true
  | _ => false

/-- The service submissions of a trace, in order. -/
def requests (trace : List Event) : List Event :=
  trace.filter Event.isRequest

/-- The velocity publishes of a trace, in order. -/
def publishes (trace : List Event) : List Event :=
  trace.filter Event.isPublish

/-- A pass through the loop body that started in world `w` ended by `break`
without any `wait_for_service` call, and the one call that left the node is the
publish of a message whose fields `linear.x`, `linear.y`, `linear.z`,
`angular.z` are `x`, `y`, `z`, `yaw`. -/
def PublishesOnly (r : Switch) (w : World) (x y z yaw : ℚ) : Prop :=
  match r with
  | Switch.brk m w1 =>
    w1 = { polls := w.polls, trace := w.trace ++ [Event.publish m] } ∧
      m.linear.x = x ∧ m.linear.y = y ∧ m.linear.z = z ∧ m.angular.z = yaw
  | Switch.ret _ => False
  | Switch.waiting _ => False

instance decidablePublishesOnly (r : Switch) (w : World) (x y z yaw : ℚ) :
    Decidable (PublishesOnly r w x y z yaw) := by
  unfold PublishesOnly
  split <;> infer_instance

/-- An environment in which every service is up and no state message comes. -/
def quietEnv : Env :=
  { wait_for_service := fun _ _ => true, state_msg := fun _ => none }

/-- An environment in which the set-mode service never comes up. -/
def noSetModeEnv : Env :=
  { wait_for_service := fun _ svc => decide (svc ≠ Service.set_mode),
    state_msg := fun _ => none }

/-- An environment in which every service is down for the first two polls. -/
def slowEnv : Env :=
  { wait_for_service := fun n _ => decide (2 ≤ n), state_msg := fun _ => none }

/-! ## The wait loop -/

theorem waitLoop_after (env : Env) (svc : Service) (k : Nat) :
    ∀ (fuel polls : Nat), ReachableAfter env svc polls k → k < fuel →
      waitLoop env svc fuel polls = some (polls + k + 1) := by
  induction k with
  | zero =>
    intro fuel polls h hk
    obtain ⟨fuel, rfl⟩ : ∃ f, fuel = f + 1 := ⟨fuel - 1, by omega⟩
    have h2 : env.wait_for_service polls svc = true := by simpa using h.2
    simp [waitLoop, h2]
  | succ k ih =>
    intro fuel polls h hk
    obtain ⟨fuel, rfl⟩ : ∃ f, fuel = f + 1 := ⟨fuel - 1, by omega⟩
    have h0 : env.wait_for_service polls svc = false := by
      simpa using h.1 0 (Nat.succ_pos k)
    have hrest : ReachableAfter env svc (polls + 1) k := by
      refine ⟨fun j hj => ?_, ?_⟩
      · have := h.1 (j + 1) (by omega)
        rwa [show polls + 1 + j = polls + (j + 1) by omega]
      · have := h.2
        rwa [show polls + 1 + k = polls + (k + 1) by omega]
    simp only [waitLoop, h0]
    rw [ih fuel (polls + 1) hrest (by omega)]
    simp
    omega

theorem waitLoop_reachable (env : Env) (svc : Service) (h : Reachable env svc)
    (fuel polls : Nat) (hf : 0 < fuel) :
    waitLoop env svc fuel polls = some (polls + 1) :=
  waitLoop_after env svc 0 fuel polls ⟨fun _ hj => absurd hj (Nat.not_lt_zero _), h _⟩ hf

theorem waitLoop_never (env : Env) (svc : Service) (h : NeverReachable env svc) :
    ∀ (fuel polls : Nat), waitLoop env svc fuel polls = none := by
  intro fuel
  induction fuel with
  | zero => intro polls; rfl
  | succ fuel ih =>
    intro polls
    simp [waitLoop, h polls, ih]

/-! ## Motion keys and unmapped keys -/

theorem zero_literal : (0.0 : ℚ) = 0 := by norm_num

theorem resetMsg_fields (msg : Twist) :
    (resetMsg msg).linear.x = 0 ∧ (resetMsg msg).linear.y = 0 ∧
      (resetMsg msg).linear.z = 0 ∧ (resetMsg msg).angular.z = 0 := by
  simp [resetMsg, zero_literal]

/-- C1: whatever the cached state and the velocity left by the pass before, a
pass on a motion key ends by `break` with a single call leaving the node, the
publish of the vector of the key table: `w`/`s` set `linear.x` to `0.1`/`-0.1`,
`a`/`d` set `linear.y`, `q`/`e` set `angular.z`, `r`/`f` set `linear.z`, the
other three of the four fields are `0`, and no service request is made. -/
theorem motion_keys_publish_table (env : Env) (fuel : Nat) (current_state_ : State)
    (msg : Twist) (w : World) :
    PublishesOnly (iteration env fuel current_state_ msg 'w' w) w 0.1 0 0 0 ∧
    PublishesOnly (iteration env fuel current_state_ msg 's' w) w (-0.1) 0 0 0 ∧
    PublishesOnly (iteration env fuel current_state_ msg 'a' w) w 0 0.1 0 0 ∧
    PublishesOnly (iteration env fuel current_state_ msg 'd' w) w 0 (-0.1) 0 0 ∧
    PublishesOnly (iteration env fuel current_state_ msg 'q' w) w 0 0 0 0.1 ∧
    PublishesOnly (iteration env fuel current_state_ msg 'e' w) w 0 0 0 (-0.1) ∧
    PublishesOnly (iteration env fuel current_state_ msg 'r' w) w 0 0 0.1 0 ∧
    PublishesOnly (iteration env fuel current_state_ msg 'f' w) w 0 0 (-0.1) 0 := by
  refine ⟨?_, ?_, ?_, ?_, ?_, ?_, ?_, ?_⟩ <;>
    simp [PublishesOnly, iteration, dispatch, publish, resetMsg, zero_literal]

theorem dispatch_default (env : Env) (fuel : Nat) (current_state_ : State) (msg : Twist)
    (key : Char) (w : World)
    (hkey : key ∉ ['w', 's', 'a', 'd', 'q', 'e', 'r', 'f', 'm', 't', 'l', 'z', 'x']) :
    dispatch env fuel current_state_ msg key w = Switch.brk msg w := by
  simp only [List.mem_cons, List.mem_singleton, List.not_mem_nil, or_false, not_or] at hkey
  obtain ⟨h1, h2, h3, h4, h5, h6, h7, h8, h9, h10, h11, h12, h13⟩ := hkey
  unfold dispatch
  split <;> first | rfl | contradiction

/-- C2: for a key that is none of `w s a d q e r f m t l z x` (so for every
upper-case letter, digit and punctuation character), whatever the cached state
and the velocity left by the pass before, the pass makes no service request
and publishes exactly one velocity, whose fields `linear.x`, `linear.y`,
`linear.z`, `angular.z` are all `0`. -/
theorem unmapped_key_publishes_zero (env : Env) (fuel : Nat) (current_state_ : State)
    (msg : Twist) (key : Char) (w : World)
    (hkey : key ∉ ['w', 's', 'a', 'd', 'q', 'e', 'r', 'f', 'm', 't', 'l', 'z', 'x']) :
    PublishesOnly (iteration env fuel current_state_ msg key w) w 0 0 0 0 ∧
      requests (iteration env fuel current_state_ msg key w).world.trace
        = requests w.trace := by
  have h : iteration env fuel current_state_ msg key w
      = Switch.brk (resetMsg msg) (publish (resetMsg msg) w) := by
    simp only [iteration, dispatch_default env fuel current_state_ (resetMsg msg) key w hkey]
  obtain ⟨hx, hy, hz, hyaw⟩ := resetMsg_fields msg
  rw [h]
  refine ⟨⟨rfl, hx, hy, hz, hyaw⟩, ?_⟩
  simp [publish, requests, Event.isRequest, Switch.world]

/-- Witness of C2 at the upper-case key `W`. -/
theorem unmapped_key_publishes_zero_witness :
    PublishesOnly (iteration quietEnv 1 {} {} 'W' {}) {} 0 0 0 0 ∧
      requests (iteration quietEnv 1 {} {} 'W' {}).world.trace = requests [] :=
  unmapped_key_publishes_zero quietEnv 1 {} {} 'W' {} (by decide)

/-! ## The compound action of key `t` -/

/-- C3: key `t` with `armed == false` cached and the arming and takeoff
services reachable.  The `switch` is left by `break` after exactly these calls,
in this order: one arming request with value `true`, a sleep of 3 seconds, one
takeoff request with altitude `3.0`.  The pass adds the publish of the reset
velocity and nothing else, so the service submissions of the pass are the
arming request followed by the takeoff request. -/
theorem takeoff_key_unarmed (env : Env) (fuel : Nat) (current_state_ : State)
    (msg : Twist) (w : World)
    (harmed : current_state_.armed = false)
    (harming : Reachable env Service.arming) (htakeoff : Reachable env Service.takeoff)
    (hfuel : 0 < fuel) :
    dispatch env fuel current_state_ msg 't' w
      = Switch.brk msg
          { polls := w.polls + 2,
            trace := w.trace ++ [Event.arming { value := true }, Event.sleep_for 3,
              Event.takeoff { altitude := 3.0 }] } ∧
    iteration env fuel current_state_ msg 't' w
      = Switch.brk (resetMsg msg)
          { polls := w.polls + 2,
            trace := w.trace ++ [Event.arming { value := true }, Event.sleep_for 3,
              Event.takeoff { altitude := 3.0 }, Event.publish (resetMsg msg)] } ∧
    requests (iteration env fuel current_state_ msg 't' w).world.trace
      = requests w.trace ++ [Event.arming { value := true },
          Event.takeoff { altitude := 3.0 }] := by
  have hd : ∀ m : Twist, dispatch env fuel current_state_ m 't' w
      = Switch.brk m
          { polls := w.polls + 2,
            trace := w.trace ++ [Event.arming { value := true }, Event.sleep_for 3,
              Event.takeoff { altitude := 3.0 }] } := by
    intro m
    simp [dispatch, armDrone, harmed, takeoffDrone, sleep_for, brkAfter,
      waitLoop_reachable env _ harming fuel _ hfuel,
      waitLoop_reachable env _ htakeoff fuel _ hfuel]
  have hi : iteration env fuel current_state_ msg 't' w
      = Switch.brk (resetMsg msg)
          { polls := w.polls + 2,
            trace := w.trace ++ [Event.arming { value := true }, Event.sleep_for 3,
              Event.takeoff { altitude := 3.0 }, Event.publish (resetMsg msg)] } := by
    simp [iteration, hd, publish]
  refine ⟨hd msg, hi, ?_⟩
  rw [hi]
  simp [requests, Event.isRequest, Switch.world, List.filter_append]

/-- Witness of C3 in the default state with every service up. -/
theorem takeoff_key_unarmed_witness :
    iteration quietEnv 1 {} {} 't' {}
      = Switch.brk (resetMsg {})
          { polls := 0 + 2,
            trace := [] ++ [Event.arming { value := true }, Event.sleep_for 3,
              Event.takeoff { altitude := 3.0 }, Event.publish (resetMsg {})] } :=
  (takeoff_key_unarmed quietEnv 1 {} {} {} rfl (fun _ => rfl) (fun _ => rfl)
    (by decide)).2.1

/-- C4: key `t` with `armed == true` cached, any mode string, and the takeoff
service reachable.  No arming request is made; the sleep of 3 seconds still
happens and is followed by exactly one takeoff request with altitude `3.0`. -/
theorem takeoff_key_armed (env : Env) (fuel : Nat) (current_state_ : State)
    (msg : Twist) (w : World)
    (harmed : current_state_.armed = true)
    (htakeoff : Reachable env Service.takeoff) (hfuel : 0 < fuel) :
    dispatch env fuel current_state_ msg 't' w
      = Switch.brk msg
          { polls := w.polls + 1,
            trace := w.trace ++ [Event.sleep_for 3, Event.takeoff { altitude := 3.0 }] } ∧
    iteration env fuel current_state_ msg 't' w
      = Switch.brk (resetMsg msg)
          { polls := w.polls + 1,
            trace := w.trace ++ [Event.sleep_for 3, Event.takeoff { altitude := 3.0 },
              Event.publish (resetMsg msg)] } ∧
    requests (iteration env fuel current_state_ msg 't' w).world.trace
      = requests w.trace ++ [Event.takeoff { altitude := 3.0 }] := by
  have hd : ∀ m : Twist, dispatch env fuel current_state_ m 't' w
      = Switch.brk m
          { polls := w.polls + 1,
            trace := w.trace ++ [Event.sleep_for 3, Event.takeoff { altitude := 3.0 }] } := by
    intro m
    simp [dispatch, armDrone, harmed, takeoffDrone, sleep_for, brkAfter,
      waitLoop_reachable env _ htakeoff fuel _ hfuel]
  have hi : iteration env fuel current_state_ msg 't' w
      = Switch.brk (resetMsg msg)
          { polls := w.polls + 1,
            trace := w.trace ++ [Event.sleep_for 3, Event.takeoff { altitude := 3.0 },
              Event.publish (resetMsg msg)] } := by
    simp [iteration, hd, publish]
  refine ⟨hd msg, hi, ?_⟩
  rw [hi]
  simp [requests, Event.isRequest, Switch.world, List.filter_append]

/-- Witness of C4 with `armed` cached and mode `STABILIZE`. -/
theorem takeoff_key_armed_witness :
    dispatch quietEnv 1 { armed := true, mode := "STABILIZE" } {} 't' {}
      = Switch.brk {}
          { polls := 0 + 1,
            trace := [] ++ [Event.sleep_for 3, Event.takeoff { altitude := 3.0 }] } :=
  (takeoff_key_armed quietEnv 1 { armed := true, mode := "STABILIZE" } {} {} rfl
    (fun _ => rfl) (by decide)).1

/-! ## Gating of the mode change, of arming and of disarming -/

theorem slowEnv_after (svc : Service) : ReachableAfter slowEnv svc 0 2 := by
  refine ⟨fun j hj => ?_, ?_⟩
  · simp only [slowEnv, decide_eq_false_iff_not]
    omega
  · simp [slowEnv]

/-- C5: `setModeGuided`, which is all that key `m` runs before the publish.
With `"GUIDED"` as cached mode it returns without any call, whatever the
environment.  With any other cached mode (the empty default included) it
returns, once the set-mode service has answered, after exactly one request, a
set-mode request with `custom_mode` `"GUIDED"`; in no environment does it
return after anything else.  The cached `armed` flag does not enter the
result. -/
theorem setModeGuided_gating (env : Env) (fuel : Nat) (current_state_ : State)
    (msg : Twist) (w : World) :
    (current_state_.mode = "GUIDED" →
      setModeGuided env fuel current_state_ w = some w) ∧
    (∀ k, current_state_.mode ≠ "GUIDED" →
      ReachableAfter env Service.set_mode w.polls k → k < fuel →
      setModeGuided env fuel current_state_ w
        = some { polls := w.polls + k + 1,
                 trace := w.trace ++ [Event.set_mode { custom_mode := "GUIDED" }] }) ∧
    (∀ w1, current_state_.mode ≠ "GUIDED" →
      setModeGuided env fuel current_state_ w = some w1 →
      w1.trace = w.trace ++ [Event.set_mode { custom_mode := "GUIDED" }]) ∧
    (∀ armed : Bool,
      setModeGuided env fuel { current_state_ with armed := armed } w
        = setModeGuided env fuel current_state_ w) ∧
    dispatch env fuel current_state_ msg 'm' w
      = brkAfter msg w (setModeGuided env fuel current_state_ w) := by
  refine ⟨fun h => ?_, fun k h hk hf => ?_, fun w1 h hret => ?_, fun armed => rfl, rfl⟩
  · simp [setModeGuided, h]
  · simp [setModeGuided, h, waitLoop_after env _ k fuel w.polls hk hf]
  · unfold setModeGuided at hret
    rw [if_neg h] at hret
    split at hret <;> cases hret
    rfl

/-- Witness of C5: the default state, the service up at the third poll. -/
theorem setModeGuided_gating_witness :
    setModeGuided slowEnv 3 {} {}
      = some { polls := 0 + 2 + 1,
               trace := [] ++ [Event.set_mode { custom_mode := "GUIDED" }] } :=
  (setModeGuided_gating slowEnv 3 {} {} {}).2.1 2 (by decide) (slowEnv_after _)
    (by decide)

/-- C6: `armDrone` returns without any call when `armed == true` is cached and,
once the arming service has answered, after exactly one arming request with
value `true` when `armed == false` is cached.  `disarmDrone`, which is all that
key `z` runs before the publish, returns without any call when
`armed == false` is cached (the default) and, once the service has answered,
after exactly one arming request with value `false` when `armed == true` is
cached.  In no environment does either return after anything else.  The cached
mode string does not enter either result. -/
theorem arm_disarm_gating (env : Env) (fuel : Nat) (current_state_ : State)
    (msg : Twist) (w : World) :
    (current_state_.armed = true → armDrone env fuel current_state_ w = some w) ∧
    (∀ k, current_state_.armed = false →
      ReachableAfter env Service.arming w.polls k → k < fuel →
      armDrone env fuel current_state_ w
        = some { polls := w.polls + k + 1,
                 trace := w.trace ++ [Event.arming { value := true }] }) ∧
    (current_state_.armed = false → disarmDrone env fuel current_state_ w = some w) ∧
    (∀ k, current_state_.armed = true →
      ReachableAfter env Service.arming w.polls k → k < fuel →
      disarmDrone env fuel current_state_ w
        = some { polls := w.polls + k + 1,
                 trace := w.trace ++ [Event.arming { value := false }] }) ∧
    (∀ w1, current_state_.armed = false →
      armDrone env fuel current_state_ w = some w1 →
      w1.trace = w.trace ++ [Event.arming { value := true }]) ∧
    (∀ w1, current_state_.armed = true →
      disarmDrone env fuel current_state_ w = some w1 →
      w1.trace = w.trace ++ [Event.arming { value := false }]) ∧
    (∀ mode : String,
      armDrone env fuel { current_state_ with mode := mode } w
        = armDrone env fuel current_state_ w ∧
      disarmDrone env fuel { current_state_ with mode := mode } w
        = disarmDrone env fuel current_state_ w) ∧
    dispatch env fuel current_state_ msg 'z' w
      = brkAfter msg w (disarmDrone env fuel current_state_ w) := by
  refine ⟨fun h => ?_, fun k h hk hf => ?_, fun h => ?_, fun k h hk hf => ?_,
    fun w1 h hret => ?_, fun w1 h hret => ?_, fun mode => ⟨rfl, rfl⟩, rfl⟩
  · simp [armDrone, h]
  · simp [armDrone, h, waitLoop_after env _ k fuel w.polls hk hf]
  · simp [disarmDrone, h]
  · simp [disarmDrone, h, waitLoop_after env _ k fuel w.polls hk hf]
  · unfold armDrone at hret
    simp only [h, Bool.false_eq_true, if_false] at hret
    split at hret <;> cases hret
    rfl
  · unfold disarmDrone at hret
    simp only [h, Bool.not_true, Bool.false_eq_true, if_false] at hret
    split at hret <;> cases hret
    rfl

/-- Witness of C6: disarming an armed vehicle, the service up at the third poll. -/
theorem arm_disarm_gating_witness :
    disarmDrone slowEnv 3 { armed := true, mode := "GUIDED" } {}
      = some { polls := 0 + 2 + 1,
               trace := [] ++ [Event.arming { value := false }] } :=
  (arm_disarm_gating slowEnv 3 { armed := true, mode := "GUIDED" } {} {}).2.2.2.1 2 rfl
    (slowEnv_after _) (by decide)

/-! ## Landing -/

/-- C10: key `l` in any cached state.  Once the land service has answered, the
pass has made exactly one service request, a default-constructed land request,
and has then published a velocity whose four fields are `0`; in no environment
does the pass end after anything else.  The cached state does not enter the
result. -/
theorem land_key_ungated (env : Env) (fuel : Nat) (current_state_ : State)
    (msg : Twist) (w : World) (k : Nat)
    (hland : ReachableAfter env Service.land w.polls k) (hfuel : k < fuel) :
    landDrone env fuel w
      = some { polls := w.polls + k + 1, trace := w.trace ++ [Event.land {}] } ∧
    iteration env fuel current_state_ msg 'l' w
      = Switch.brk (resetMsg msg)
          { polls := w.polls + k + 1,
            trace := w.trace ++ [Event.land {}, Event.publish (resetMsg msg)] } ∧
    requests (iteration env fuel current_state_ msg 'l' w).world.trace
      = requests w.trace ++ [Event.land {}] ∧
    (∀ (env1 : Env) (fuel1 : Nat) (m : Twist) (w1 : World),
      iteration env1 fuel1 current_state_ msg 'l' w = Switch.brk m w1 →
      m = resetMsg msg ∧
        w1.trace = w.trace ++ [Event.land {}, Event.publish (resetMsg msg)]) ∧
    ((resetMsg msg).linear.x = 0 ∧ (resetMsg msg).linear.y = 0 ∧
      (resetMsg msg).linear.z = 0 ∧ (resetMsg msg).angular.z = 0) := by
  have hl : landDrone env fuel w
      = some { polls := w.polls + k + 1, trace := w.trace ++ [Event.land {}] } := by
    simp [landDrone, waitLoop_after env _ k fuel w.polls hland hfuel]
  have hi : iteration env fuel current_state_ msg 'l' w
      = Switch.brk (resetMsg msg)
          { polls := w.polls + k + 1,
            trace := w.trace ++ [Event.land {}, Event.publish (resetMsg msg)] } := by
    simp [iteration, dispatch, hl, brkAfter, publish]
  refine ⟨hl, hi, ?_, ?_, resetMsg_fields msg⟩
  · rw [hi]
    simp [requests, Event.isRequest, Switch.world, List.filter_append]
  · intro env1 fuel1 m w1 h
    simp only [iteration, dispatch, landDrone] at h
    split at h
    · rename_i m2 w2 hb
      split at hb
      · cases hb
      · cases hb
        cases h
        exact ⟨rfl, by simp [publish]⟩
    · cases h
    · cases h

/-- Witness of C10: an armed vehicle in mode `AUTO`, the service up at the
third poll. -/
theorem land_key_ungated_witness :
    iteration slowEnv 3 { armed := true, mode := "AUTO" } {} 'l' {}
      = Switch.brk (resetMsg {})
          { polls := 0 + 2 + 1,
            trace := [] ++ [Event.land {}, Event.publish (resetMsg {})] } :=
  (land_key_ungated slowEnv 3 { armed := true, mode := "AUTO" } {} {} 2
    (slowEnv_after _) (by decide)).2.1

/-! ## An endpoint that never answers -/

theorem setModeGuided_never_returns (env : Env) (fuel : Nat) (st : State) (w : World)
    (hnever : NeverReachable env Service.set_mode) (hmode : st.mode ≠ "GUIDED") :
    setModeGuided env fuel st w = none := by
  simp [setModeGuided, hmode, waitLoop_never env _ hnever]

theorem iteration_setMode_waiting (env : Env) (fuel : Nat) (st : State) (msg : Twist)
    (w : World) (hnever : NeverReachable env Service.set_mode) (hmode : st.mode ≠ "GUIDED") :
    dispatch env fuel st msg 'm' w = Switch.waiting w ∧
      iteration env fuel st msg 'm' w = Switch.waiting w := by
  have hd : ∀ m : Twist, dispatch env fuel st m 'm' w = Switch.waiting w := by
    intro m
    simp [dispatch, setModeGuided_never_returns env fuel st w hnever hmode, brkAfter]
  exact ⟨hd msg, by simp [iteration, hd]⟩

theorem deliver_beforeSpin (env : Env) (i : Nat) (st : State) :
    deliver (beforeSpin env) i st = st := rfl

/-- Keys that were all dispatched leave the loop where it would be had they
been the only keys; a cache that no message reaches is still what it was. -/
theorem runLoop_append_of_stopped (env : Env) (fuel : Nat)
    (hmsg : ∀ i, env.state_msg i = none) (pre ks : List Char) :
    ∀ (i : Nat) (st : State) (msg : Twist) (w w1 : World),
      runLoop env fuel pre i st msg w = Outcome.stopped w1 →
      ∃ msg1, runLoop env fuel (pre ++ ks) i st msg w
        = runLoop env fuel ks (i + pre.length) st msg1 w1 := by
  induction pre with
  | nil =>
    intro i st msg w w1 h
    simp only [runLoop, Outcome.stopped.injEq] at h
    subst h
    exact ⟨msg, rfl⟩
  | cons key pre ih =>
    intro i st msg w w1 h
    have hst : deliver env i st = st := by simp [deliver, hmsg]
    simp only [runLoop, hst] at h
    simp only [List.cons_append, runLoop, hst]
    split at h
    · rename_i m2 w2 hit
      obtain ⟨msg1, hrun⟩ := ih (i + 1) st m2 w2 w1 h
      refine ⟨msg1, ?_⟩
      rw [List.length_cons, show i + (pre.length + 1) = i + 1 + pre.length by omega]
      exact hrun
    · cases h
    · cases h

/-- C8: the set-mode service never answers.  While `run()` executes, the cache
holds what the constructor put there, the default state with mode `""`, because
no state message arrives before `rclcpp::spin`.  With that cached state, and
whatever the poll budget, `setModeGuided` does not return and the pass on key
`m` is still waiting in the world it started in: no set-mode request, no
publish.  So the program that reads `m`, first or after any keys that were all
dispatched, is stuck there with the trace of those keys and nothing more,
whatever keys follow, `x` included. -/
theorem setMode_unreachable_blocks (env : Env) (fuel : Nat) (pre rest : List Char)
    (w1 : World) (hnever : NeverReachable env Service.set_mode) :
    (∀ (i : Nat) (st : State), deliver (beforeSpin env) i st = st) ∧
    (∀ (msg : Twist) (w : World),
      setModeGuided (beforeSpin env) fuel {} w = none ∧
      dispatch (beforeSpin env) fuel {} msg 'm' w = Switch.waiting w ∧
      iteration (beforeSpin env) fuel {} msg 'm' w = Switch.waiting w) ∧
    constructTeleopDrone env fuel ('m' :: rest) = Outcome.waiting {} ∧
    (constructTeleopDrone env fuel pre = Outcome.stopped w1 →
      constructTeleopDrone env fuel (pre ++ 'm' :: rest) = Outcome.waiting w1) := by
  have hn : NeverReachable (beforeSpin env) Service.set_mode := fun n => hnever n
  have hmode : ({} : State).mode ≠ "GUIDED" := by decide
  have hloop : ∀ (i : Nat) (msg : Twist) (w : World),
      runLoop (beforeSpin env) fuel ('m' :: rest) i {} msg w = Outcome.waiting w := by
    intro i msg w
    simp [runLoop, deliver_beforeSpin,
      (iteration_setMode_waiting (beforeSpin env) fuel {} msg w hn hmode).2]
  refine ⟨fun i st => rfl, fun msg w => ?_, hloop 0 {} {}, fun hpre => ?_⟩
  · exact ⟨setModeGuided_never_returns (beforeSpin env) fuel {} w hn hmode,
      iteration_setMode_waiting (beforeSpin env) fuel {} msg w hn hmode⟩
  · obtain ⟨msg1, hrun⟩ := runLoop_append_of_stopped (beforeSpin env) fuel (fun _ => rfl)
      pre ('m' :: rest) 0 {} {} {} w1 hpre
    simp only [constructTeleopDrone, run]
    rw [hrun]
    exact hloop _ _ _

/-- Witness of C8: only the set-mode service is down; keys `w`, `m`, `x`. -/
theorem setMode_unreachable_blocks_witness :
    constructTeleopDrone noSetModeEnv 7 (['w'] ++ 'm' :: ['x'])
      = Outcome.waiting { polls := 0, trace := [Event.publish { linear := { x := 0.1 } }] } :=
  (setMode_unreachable_blocks noSetModeEnv 7 ['w'] ['x']
    { polls := 0, trace := [Event.publish { linear := { x := 0.1 } }] }
    (fun _ => rfl)).2.2.2 rfl

/-! ## The scenario `m t w l x` -/

/-- C7, as stated, fails on the count of publishes: in the default state, with
every service up and no state message, the run on `m t w l x` exits after four
velocity publishes, not five. -/
theorem scenario_not_five_publishes :
    (publishes (run quietEnv 1 ['m', 't', 'w', 'l', 'x'] {}).world.trace).length = 4 ∧
    ¬ (publishes (run quietEnv 1 ['m', 't', 'w', 'l', 'x'] {}).world.trace).length = 5 := by
  have h : (publishes (run quietEnv 1 ['m', 't', 'w', 'l', 'x'] {}).world.trace).length = 4 :=
    rfl
  exact ⟨h, by rw [h]; decide⟩

/-- C7, amended to four publishes: from the default cached state, with no state
message and every service up, the run on `m t w l x` makes these calls, in this
order, and then exits on `x`: set-mode request `"GUIDED"`, all-zero publish;
arming request `true`, sleep of 3 seconds, takeoff request with altitude `3.0`,
all-zero publish; publish with `linear.x = 0.1` and the rest zero; land request,
all-zero publish.  That is four service requests, one of each kind, and four
velocity publishes. -/
theorem scenario (env : Env) (fuel : Nat)
    (hmsg : ∀ i, env.state_msg i = none) (hup : ∀ svc, Reachable env svc)
    (hfuel : 0 < fuel) :
    run env fuel ['m', 't', 'w', 'l', 'x'] {}
      = Outcome.exited
          { polls := 4,
            trace := [Event.set_mode { custom_mode := "GUIDED" }, Event.publish {},
              Event.arming { value := true }, Event.sleep_for 3,
              Event.takeoff { altitude := 3.0 }, Event.publish {},
              Event.publish { linear := { x := 0.1 } },
              Event.land {}, Event.publish {}] } ∧
    requests (run env fuel ['m', 't', 'w', 'l', 'x'] {}).world.trace
      = [Event.set_mode { custom_mode := "GUIDED" }, Event.arming { value := true },
          Event.takeoff { altitude := 3.0 }, Event.land {}] ∧
    publishes (run env fuel ['m', 't', 'w', 'l', 'x'] {}).world.trace
      = [Event.publish {}, Event.publish {}, Event.publish { linear := { x := 0.1 } },
          Event.publish {}] ∧
    (publishes (run env fuel ['m', 't', 'w', 'l', 'x'] {}).world.trace).length = 4 := by
  have hrun : run env fuel ['m', 't', 'w', 'l', 'x'] {}
      = Outcome.exited
          { polls := 4,
            trace := [Event.set_mode { custom_mode := "GUIDED" }, Event.publish {},
              Event.arming { value := true }, Event.sleep_for 3,
              Event.takeoff { altitude := 3.0 }, Event.publish {},
              Event.publish { linear := { x := 0.1 } },
              Event.land {}, Event.publish {}] } := by
    have hne : ¬ ("" : String) = "GUIDED" := by decide
    simp [run, runLoop, deliver, hmsg, iteration, dispatch, setModeGuided, armDrone, hne,
      takeoffDrone, landDrone, sleep_for, publish, brkAfter, resetMsg,
      waitLoop_reachable env _ (hup _) fuel _ hfuel]
  rw [hrun]
  exact ⟨rfl, rfl, rfl, rfl⟩

/-- Witness of amended C7 in the environment where every service is up. -/
theorem scenario_witness :
    publishes (run quietEnv 1 ['m', 't', 'w', 'l', 'x'] {}).world.trace
      = [Event.publish {}, Event.publish {}, Event.publish { linear := { x := 0.1 } },
          Event.publish {}] :=
  (scenario quietEnv 1 (fun _ => rfl) (fun _ _ => rfl) (by decide)).2.2.1

/-! ## The exit key -/

theorem publishes_append_request (trace : List Event) (e : Event)
    (he : e.isPublish = false) : publishes (trace ++ [e]) = publishes trace := by
  simp [publishes, List.filter_append, he]

theorem setModeGuided_publishes (env : Env) (fuel : Nat) (st : State) (w w1 : World)
    (h : setModeGuided env fuel st w = some w1) : publishes w1.trace = publishes w.trace := by
  unfold setModeGuided at h
  split at h
  · cases h; rfl
  · split at h
    · cases h
    · cases h; exact publishes_append_request _ _ rfl

theorem armDrone_publishes (env : Env) (fuel : Nat) (st : State) (w w1 : World)
    (h : armDrone env fuel st w = some w1) : publishes w1.trace = publishes w.trace := by
  unfold armDrone at h
  split at h
  · cases h; rfl
  · split at h
    · cases h
    · cases h; exact publishes_append_request _ _ rfl

theorem disarmDrone_publishes (env : Env) (fuel : Nat) (st : State) (w w1 : World)
    (h : disarmDrone env fuel st w = some w1) : publishes w1.trace = publishes w.trace := by
  unfold disarmDrone at h
  split at h
  · cases h; rfl
  · split at h
    · cases h
    · cases h; exact publishes_append_request _ _ rfl

theorem takeoffDrone_publishes (env : Env) (fuel : Nat) (w w1 : World)
    (h : takeoffDrone env fuel w = some w1) : publishes w1.trace = publishes w.trace := by
  unfold takeoffDrone at h
  split at h
  · cases h
  · cases h; exact publishes_append_request _ _ rfl

theorem landDrone_publishes (env : Env) (fuel : Nat) (w w1 : World)
    (h : landDrone env fuel w = some w1) : publishes w1.trace = publishes w.trace := by
  unfold landDrone at h
  split at h
  · cases h
  · cases h; exact publishes_append_request _ _ rfl

theorem brkAfter_brk (msg m : Twist) (w w1 : World) (r : Option World)
    (h : brkAfter msg w r = Switch.brk m w1) : r = some w1 := by
  cases r with
  | none => simp [brkAfter] at h
  | some w2 =>
    simp only [brkAfter, Switch.brk.injEq] at h
    rw [h.2]

theorem brkAfter_not_ret (msg : Twist) (w w1 : World) (r : Option World) :
    brkAfter msg w r ≠ Switch.ret w1 := by
  cases r <;> simp [brkAfter]

/-- A `break` out of the `switch` happens on a key other than `x` and after no
publish. -/
theorem dispatch_brk (env : Env) (fuel : Nat) (st : State) (msg m : Twist) (key : Char)
    (w w1 : World) (h : dispatch env fuel st msg key w = Switch.brk m w1) :
    key ≠ 'x' ∧ publishes w1.trace = publishes w.trace := by
  unfold dispatch at h
  split at h
  case h_13 => cases h
  case h_9 =>
    exact ⟨by decide, setModeGuided_publishes env fuel st w w1 (brkAfter_brk _ _ _ _ _ h)⟩
  case h_10 =>
    refine ⟨by decide, ?_⟩
    split at h
    · cases h
    · rename_i w2 harm
      have ht := takeoffDrone_publishes env fuel _ w1 (brkAfter_brk _ _ _ _ _ h)
      rw [ht, ← armDrone_publishes env fuel st w w2 harm]
      exact publishes_append_request _ _ rfl
  case h_11 =>
    exact ⟨by decide, landDrone_publishes env fuel w w1 (brkAfter_brk _ _ _ _ _ h)⟩
  case h_12 =>
    exact ⟨by decide, disarmDrone_publishes env fuel st w w1 (brkAfter_brk _ _ _ _ _ h)⟩
  case h_14 hx =>
    cases h
    exact ⟨fun hk => hx (by rw [hk]), rfl⟩
  all_goals
    cases h
    exact ⟨by decide, rfl⟩

/-- A `return` out of the `switch` happens on key `x` only, and after no call. -/
theorem dispatch_ret (env : Env) (fuel : Nat) (st : State) (msg : Twist) (key : Char)
    (w w1 : World) (h : dispatch env fuel st msg key w = Switch.ret w1) :
    key = 'x' ∧ w1 = w := by
  unfold dispatch at h
  split at h
  case h_13 => cases h; exact ⟨rfl, rfl⟩
  case h_10 =>
    split at h
    · cases h
    · exact absurd h (brkAfter_not_ret _ _ _ _)
  case h_9 => exact absurd h (brkAfter_not_ret _ _ _ _)
  case h_11 => exact absurd h (brkAfter_not_ret _ _ _ _)
  case h_12 => exact absurd h (brkAfter_not_ret _ _ _ _)
  all_goals cases h

theorem iteration_brk (env : Env) (fuel : Nat) (st : State) (msg m : Twist) (key : Char)
    (w w1 : World) (h : iteration env fuel st msg key w = Switch.brk m w1) :
    key ≠ 'x' ∧ (publishes w1.trace).length = (publishes w.trace).length + 1 := by
  unfold iteration at h
  split at h
  · rename_i m2 w2 hd
    obtain ⟨hkey, hp⟩ := dispatch_brk env fuel st _ m2 key w w2 hd
    cases h
    refine ⟨hkey, ?_⟩
    simp [publish, publishes, List.filter_append, Event.isPublish] at hp ⊢
    rw [hp]
  · cases h
  · cases h

theorem iteration_ret (env : Env) (fuel : Nat) (st : State) (msg : Twist) (key : Char)
    (w w1 : World) (h : iteration env fuel st msg key w = Switch.ret w1) :
    key = 'x' ∧ w1 = w := by
  unfold iteration at h
  split at h
  · cases h
  · rename_i w2 hd
    cases h
    exact dispatch_ret env fuel st _ key w w1 hd
  · cases h

/-- With every service up and a poll budget of at least one, no pass is left
waiting. -/
theorem dispatch_returns (env : Env) (fuel : Nat) (st : State) (msg : Twist) (key : Char)
    (w : World) (hup : ∀ svc, Reachable env svc) (hfuel : 0 < fuel) :
    ∀ w1, dispatch env fuel st msg key w ≠ Switch.waiting w1 := by
  intro w1
  have hw : ∀ svc polls, waitLoop env svc fuel polls = some (polls + 1) :=
    fun svc polls => waitLoop_reachable env svc (hup svc) fuel polls hfuel
  unfold dispatch
  split
  case h_9 =>
    simp only [setModeGuided, hw]
    split <;> simp [brkAfter]
  case h_10 =>
    simp only [armDrone, takeoffDrone, sleep_for, hw]
    split
    · rename_i harm
      split at harm <;> cases harm
    · simp [brkAfter]
  case h_11 => simp [landDrone, hw, brkAfter]
  case h_12 =>
    simp only [disarmDrone, hw]
    split <;> simp [brkAfter]
  all_goals simp

theorem iteration_returns (env : Env) (fuel : Nat) (st : State) (msg : Twist) (key : Char)
    (w : World) (hup : ∀ svc, Reachable env svc) (hfuel : 0 < fuel) :
    ∀ w1, iteration env fuel st msg key w ≠ Switch.waiting w1 := by
  intro w1 h
  unfold iteration at h
  split at h
  · cases h
  · cases h
  · rename_i w2 hd
    exact dispatch_returns env fuel st _ key w hup hfuel w2 hd

theorem runLoop_exit_cut (env : Env) (fuel : Nat) (keys rest : List Char) :
    ∀ (i : Nat) (st : State) (msg : Twist) (w : World),
      runLoop env fuel (keys ++ 'x' :: rest) i st msg w
        = runLoop env fuel (keys ++ ['x']) i st msg w := by
  induction keys with
  | nil => intro i st msg w; rfl
  | cons key keys ih =>
    intro i st msg w
    simp only [List.cons_append, runLoop]
    split
    · exact ih _ _ _ _
    · rfl
    · rfl

theorem runLoop_publishes (env : Env) (fuel : Nat) (keys : List Char) :
    ∀ (i : Nat) (st : State) (msg : Twist) (w w1 : World),
      (runLoop env fuel keys i st msg w = Outcome.exited w1 ∨
        runLoop env fuel keys i st msg w = Outcome.stopped w1) →
      (publishes w1.trace).length
        = (publishes w.trace).length
          + (keys.takeWhile (fun key => decide (key ≠ 'x'))).length := by
  induction keys with
  | nil =>
    intro i st msg w w1 h
    rcases h with h | h
    · cases h
    · cases h; rfl
  | cons key keys ih =>
    intro i st msg w w1 h
    simp only [runLoop] at h
    split at h
    · rename_i m2 w2 hit
      obtain ⟨hkey, hlen⟩ := iteration_brk env fuel _ msg m2 key w w2 hit
      have := ih _ _ _ _ _ h
      have hdec : decide (key ≠ 'x') = true := by simpa using hkey
      simp only [List.takeWhile_cons, hdec, ite_true, List.length_cons]
      omega
    · rename_i w2 hit
      obtain ⟨hkey, hw⟩ := iteration_ret env fuel _ msg key w w2 hit
      rcases h with h | h
      · cases h
        subst hkey
        rw [hw]
        simp
      · cases h
    · rcases h with h | h <;> cases h

theorem runLoop_returns (env : Env) (fuel : Nat) (keys : List Char)
    (hup : ∀ svc, Reachable env svc) (hfuel : 0 < fuel) :
    ∀ (i : Nat) (st : State) (msg : Twist) (w : World),
      ∃ w1, runLoop env fuel keys i st msg w = Outcome.exited w1 ∨
        runLoop env fuel keys i st msg w = Outcome.stopped w1 := by
  induction keys with
  | nil => intro i st msg w; exact ⟨w, Or.inr rfl⟩
  | cons key keys ih =>
    intro i st msg w
    simp only [runLoop]
    split
    · exact ih _ _ _ _
    · exact ⟨_, Or.inl rfl⟩
    · rename_i w2 hit
      exact absurd hit (iteration_returns env fuel _ msg key w hup hfuel w2)

/-- C9: the exit key.  A pass on `x` leaves the `switch` by `return` in the
world it started in: no service request, no publish.  The loop that reads `x`
exits there, so the keys after it change nothing.  Whenever the run ends other
than inside a wait loop, the number of velocity publishes it made is the number
of keys before the first `x`; and with every service up and a poll budget of
at least one it does end that way. -/
theorem exit_key (env : Env) (fuel : Nat) (current_state_ : State) (msg : Twist)
    (w : World) (i : Nat) (keys rest : List Char) :
    iteration env fuel current_state_ msg 'x' w = Switch.ret w ∧
    runLoop env fuel ('x' :: rest) i current_state_ msg w = Outcome.exited w ∧
    runLoop env fuel (keys ++ 'x' :: rest) i current_state_ msg w
      = runLoop env fuel (keys ++ ['x']) i current_state_ msg w ∧
    (∀ w1, (runLoop env fuel keys i current_state_ msg w = Outcome.exited w1 ∨
        runLoop env fuel keys i current_state_ msg w = Outcome.stopped w1) →
      (publishes w1.trace).length
        = (publishes w.trace).length
          + (keys.takeWhile (fun key => decide (key ≠ 'x'))).length) ∧
    (∀ w1, (run env fuel keys current_state_ = Outcome.exited w1 ∨
        run env fuel keys current_state_ = Outcome.stopped w1) →
      (publishes w1.trace).length
        = (keys.takeWhile (fun key => decide (key ≠ 'x'))).length) ∧
    ((∀ svc, Reachable env svc) → 0 < fuel →
      ∃ w1, run env fuel keys current_state_ = Outcome.exited w1 ∨
        run env fuel keys current_state_ = Outcome.stopped w1) := by
  refine ⟨rfl, rfl, runLoop_exit_cut env fuel keys rest i current_state_ msg w,
    runLoop_publishes env fuel keys i current_state_ msg w, fun w1 h => ?_,
    fun hup hfuel => runLoop_returns env fuel keys hup hfuel _ _ _ _⟩
  have := runLoop_publishes env fuel keys 0 current_state_ {} {} w1 h
  simpa [publishes] using this

/-- Witness of C9: the keys `w a x w`, every service up. -/
theorem exit_key_witness :
    run quietEnv 1 ['w', 'a', 'x', 'w'] {}
      = Outcome.exited
          { polls := 0,
            trace := [Event.publish { linear := { x := 0.1 } },
              Event.publish { linear := { y := 0.1 } }] } ∧
    (publishes [Event.publish { linear := { x := 0.1 } },
        Event.publish { linear := { y := 0.1 } }]).length
      = (['w', 'a', 'x', 'w'].takeWhile (fun key => decide (key ≠ 'x'))).length :=
  ⟨rfl, (exit_key quietEnv 1 {} {} {} 0 ['w', 'a', 'x', 'w'] []).2.2.2.2.1
    { polls := 0,
      trace := [Event.publish { linear := { x := 0.1 } },
        Event.publish { linear := { y := 0.1 } }] } (Or.inl rfl)⟩

end TeleopDrone
